import Mathlib

/-!
Shallow embedding of the real-time event-distribution subsystem of the
itemseek2 backend (Express + socket.io), centred on:

* `src/services/websocket/socketServer.ts` — the `WebSocketService` class:
  connection registry (`connectedUsers : Map<string, Set<string>>`),
  socket authentication middleware, connect/disconnect handlers,
  broadcast API, Redis relay subscriptions;
* `src/services/websocket/inventoryEvents.ts` — inventory emitters and
  inbound-message handlers;
* `src/services/websocket/userEvents.ts` — role-room joins;
* `src/services/websocket/notificationEvents.ts` — ad hoc `notify:` rooms;
* `src/middleware/auth.ts` — the HTTP `authenticate` middleware;
* `src/routes/inventory.ts` — the emit blocks of the create-item and
  update-quantity routes.

JS `Map`/`Set` (insertion ordered, no duplicate keys/elements) are embedded
as association lists / lists; machine-irrelevant fields (timestamps in
payloads, loggers) are dropped; quantities are `Nat` (the zod schemas
require nonnegative integers).
-/

namespace ItemSeek

/-! ### Connection registry
`connectedUsers : Map<string, Set<string>>` from `socketServer.ts`,
embedded as an insertion-ordered association list of userId to the list
of socket ids (a JS `Set` in insertion order). -/

abbrev Registry := List (String × List String)

/-- `Map.get` (= `Map.has` when paired with `Option.isSome`). -/
def lookupKey : Registry → String → Option (List String)
  | [], _ => none
  | (k, v) :: rest, u => if k = u then some v else lookupKey rest u

/-- `Map.set` on a key already present: replace its value in place. -/
def setKey : Registry → String → List String → Registry
  | [], _, _ => []
  | (k, v) :: rest, u, nv => if k = u then (k, nv) :: rest else (k, v) :: setKey rest u nv

/-- `Map.delete`. -/
def eraseKey : Registry → String → Registry
  | [], _ => []
  | (k, v) :: rest, u => if k = u then rest else (k, v) :: eraseKey rest u

/-- `addConnectedUser` (socketServer.ts 165–170):
`if (!map.has(userId)) map.set(userId, new Set()); map.get(userId)!.add(socketId)`.
A fresh key is appended at the end (JS `Map` insertion order); `Set.add`
appends the element only when absent. -/
def addConnectedUser (reg : Registry) (userId socketId : String) : Registry :=
  match lookupKey reg userId with
  | none => reg ++ [(userId, [socketId])]
  | some ss => setKey reg userId (if socketId ∈ ss then ss else ss ++ [socketId])

/-- `removeConnectedUser` (socketServer.ts 172–180):
`const s = map.get(userId); if (s) { s.delete(socketId); if (s.size === 0) map.delete(userId) }`. -/
def removeConnectedUser (reg : Registry) (userId socketId : String) : Registry :=
  match lookupKey reg userId with
  | none => reg
  | some ss =>
    let ss' := ss.erase socketId
    if ss' = [] then eraseKey reg userId else setKey reg userId ss'

/-- `isUserConnected` (socketServer.ts 182–184): `map.has(userId)`. -/
def isUserConnected (reg : Registry) (userId : String) : Bool :=
  (lookupKey reg userId).isSome

/-! ### Presence events produced by the connect / disconnect handlers -/

/-- An outbound broadcast: target room (`none` = `io.emit`, everyone),
event name, and the user the presence payload refers to. -/
structure OutEvent where
  room : Option String
  event : String
  forUser : String
  deriving DecidableEq, Repr

/-- The `connection` handler body (socketServer.ts 121–141), restricted to
its registry/broadcast effects: `addConnectedUser` then an unconditional
`user:online` broadcast to the organization room. -/
def connectStep (reg : Registry) (userId orgId socketId : String) :
    Registry × List OutEvent :=
  (addConnectedUser reg userId socketId,
   [⟨some ("org:" ++ orgId), "user:online", userId⟩])

/-- The `disconnect` handler body (socketServer.ts 144–156):
`removeConnectedUser`, then `user:offline` to the organization room if
`!isUserConnected(userId)` afterwards. -/
def disconnectStep (reg : Registry) (userId orgId socketId : String) :
    Registry × List OutEvent :=
  let reg' := removeConnectedUser reg userId socketId
  (reg',
   if isUserConnected reg' userId then []
   else [⟨some ("org:" ++ orgId), "user:offline", userId⟩])

/-- A registry-affecting step of the socket server's lifetime. -/
inductive RegOp where
  | connect (userId orgId socketId : String)
  | disconnect (userId orgId socketId : String)
  deriving DecidableEq, Repr

/-- Run a sequence of connect/disconnect steps from a registry, collecting
the presence broadcasts in order. -/
def runOps : Registry → List RegOp → Registry × List OutEvent
  | reg, [] => (reg, [])
  | reg, op :: rest =>
    let (reg', evs) :=
      match op with
      | .connect u o s => connectStep reg u o s
      | .disconnect u o s => disconnectStep reg u o s
    let (regF, evsF) := runOps reg' rest
    (regF, evs ++ evsF)

/-- Number of events named `name` concerning `userId` in a broadcast list. -/
def countEvents (evs : List OutEvent) (name userId : String) : Nat :=
  (evs.filter (fun e => e.event = name ∧ e.forUser = userId)).length

/-! ### Registry well-formedness -/

/-- Well-formedness of the registry: keys are distinct (JS `Map`), every
socket set is duplicate-free (JS `Set`) and nonempty. -/
def RegWF (reg : Registry) : Prop :=
  (reg.map Prod.fst).Nodup ∧ ∀ p ∈ reg, p.2 ≠ [] ∧ p.2.Nodup

theorem lookupKey_eq_none {reg : Registry} {u : String}
    (h : u ∉ reg.map Prod.fst) : lookupKey reg u = none := by
  induction reg with
  | nil => rfl
  | cons p rest ih =>
    obtain ⟨k, v⟩ := p
    simp only [List.map_cons, List.mem_cons] at h
    push_neg at h
    have hk : k ≠ u := fun hh => h.1 hh.symm
    simp only [lookupKey, if_neg hk]
    exact ih h.2

theorem lookupKey_isSome_iff {reg : Registry} {u : String} :
    (lookupKey reg u).isSome = true ↔ u ∈ reg.map Prod.fst := by
  induction reg with
  | nil => simp [lookupKey]
  | cons p rest ih =>
    by_cases hk : p.1 = u
    · subst hk; simp [lookupKey]
    · simp only [lookupKey, if_neg hk, List.map_cons, List.mem_cons]
      rw [ih]
      constructor
      · exact fun h => Or.inr h
      · rintro (h | h)
        · exact absurd h.symm hk
        · exact h

theorem lookupKey_mem {reg : Registry} {u : String} {ss : List String}
    (h : lookupKey reg u = some ss) : (u, ss) ∈ reg := by
  induction reg with
  | nil => simp [lookupKey] at h
  | cons p rest ih =>
    obtain ⟨k, v⟩ := p
    by_cases hk : k = u
    · simp only [lookupKey, if_pos hk] at h
      obtain rfl : v = ss := Option.some.inj h
      subst hk
      exact List.mem_cons_self _ _
    · simp only [lookupKey, if_neg hk] at h
      exact List.mem_cons_of_mem _ (ih h)

theorem keys_setKey (reg : Registry) (u : String) (nv : List String) :
    (setKey reg u nv).map Prod.fst = reg.map Prod.fst := by
  induction reg with
  | nil => rfl
  | cons p rest ih =>
    by_cases hk : p.1 = u
    · simp [setKey, if_pos hk, hk]
    · simp [setKey, if_neg hk, ih]

theorem mem_setKey {reg : Registry} {u : String} {nv : List String} {q : String × List String}
    (h : q ∈ setKey reg u nv) : q ∈ reg ∨ q = (u, nv) := by
  induction reg with
  | nil => simp [setKey] at h
  | cons p rest ih =>
    by_cases hk : p.1 = u
    · simp only [setKey, if_pos hk, List.mem_cons] at h
      rcases h with h | h
      · right; rw [h, hk]
      · left; exact List.mem_cons_of_mem _ h
    · simp only [setKey, if_neg hk, List.mem_cons] at h
      rcases h with h | h
      · left; rw [h]; exact List.mem_cons_self _ _
      · rcases ih h with h' | h'
        · exact Or.inl (List.mem_cons_of_mem _ h')
        · exact Or.inr h'

theorem keys_eraseKey_sublist (reg : Registry) (u : String) :
    List.Sublist ((eraseKey reg u).map Prod.fst) (reg.map Prod.fst) := by
  induction reg with
  | nil => simp [eraseKey]
  | cons p rest ih =>
    obtain ⟨k, v⟩ := p
    by_cases hk : k = u
    · simp only [eraseKey, if_pos hk, List.map_cons]
      exact List.sublist_cons_of_sublist _ (List.Sublist.refl _)
    · simp only [eraseKey, if_neg hk, List.map_cons]
      exact ih.cons₂ _

theorem mem_eraseKey {reg : Registry} {u : String} {q : String × List String}
    (h : q ∈ eraseKey reg u) : q ∈ reg := by
  induction reg with
  | nil => simp [eraseKey] at h
  | cons p rest ih =>
    by_cases hk : p.1 = u
    · simp only [eraseKey, if_pos hk] at h
      exact List.mem_cons_of_mem _ h
    · simp only [eraseKey, if_neg hk, List.mem_cons] at h
      rcases h with h | h
      · rw [h]; exact List.mem_cons_self _ _
      · exact List.mem_cons_of_mem _ (ih h)

theorem regWF_add {reg : Registry} (h : RegWF reg) (u s : String) :
    RegWF (addConnectedUser reg u s) := by
  obtain ⟨hkeys, hvals⟩ := h
  unfold addConnectedUser
  cases hl : lookupKey reg u with
  | none =>
    refine ⟨?_, ?_⟩
    · rw [List.map_append]
      simp only [List.map_cons, List.map_nil]
      rw [List.nodup_append]
      refine ⟨hkeys, List.nodup_singleton _, ?_⟩
      intro x hx hx'
      simp only [List.mem_singleton] at hx'
      subst hx'
      rw [← lookupKey_isSome_iff, hl] at hx
      exact Bool.noConfusion hx
    · intro p hp
      rcases List.mem_append.mp hp with h' | h'
      · exact hvals p h'
      · simp only [List.mem_singleton] at h'
        subst h'
        exact ⟨by simp, List.nodup_singleton _⟩
  | some ss =>
    have hmem := lookupKey_mem hl
    have hss := hvals _ hmem
    refine ⟨by rw [keys_setKey]; exact hkeys, ?_⟩
    intro p hp
    rcases mem_setKey hp with h' | h'
    · exact hvals p h'
    · subst h'
      by_cases hin : s ∈ ss
      · simpa [if_pos hin] using hss
      · simp only [if_neg hin]
        refine ⟨by simp, ?_⟩
        rw [List.nodup_append]
        refine ⟨hss.2, List.nodup_singleton _, ?_⟩
        intro a ha ha'
        simp only [List.mem_singleton] at ha'
        subst ha'
        exact hin ha

theorem regWF_remove {reg : Registry} (h : RegWF reg) (u s : String) :
    RegWF (removeConnectedUser reg u s) := by
  obtain ⟨hkeys, hvals⟩ := h
  unfold removeConnectedUser
  cases hl : lookupKey reg u with
  | none => exact ⟨hkeys, hvals⟩
  | some ss =>
    simp only
    by_cases he : ss.erase s = []
    · rw [if_pos he]
      exact ⟨(keys_eraseKey_sublist reg u).nodup hkeys,
             fun p hp => hvals p (mem_eraseKey hp)⟩
    · rw [if_neg he]
      refine ⟨by rw [keys_setKey]; exact hkeys, ?_⟩
      intro p hp
      rcases mem_setKey hp with h' | h'
      · exact hvals p h'
      · subst h'
        have hss := hvals _ (lookupKey_mem hl)
        exact ⟨he, hss.2.erase s⟩

/-- Well-formedness is preserved by every connect/disconnect sequence. -/
theorem regWF_runOps {reg : Registry} (h : RegWF reg) (ops : List RegOp) :
    RegWF (runOps reg ops).1 := by
  induction ops generalizing reg with
  | nil => exact h
  | cons op rest ih =>
    cases op with
    | connect u o s =>
      simpa [runOps, connectStep] using ih (regWF_add h u s)
    | disconnect u o s =>
      simpa [runOps, disconnectStep] using ih (regWF_remove h u s)

theorem lookupKey_setKey_self {reg : Registry} {u : String} {ss : List String}
    (h : lookupKey reg u = some ss) (nv : List String) :
    lookupKey (setKey reg u nv) u = some nv := by
  induction reg with
  | nil => simp [lookupKey] at h
  | cons p rest ih =>
    obtain ⟨k, v⟩ := p
    by_cases hk : k = u
    · simp [setKey, lookupKey, if_pos hk]
    · simp only [lookupKey, if_neg hk] at h
      simp only [setKey, if_neg hk, lookupKey, if_neg hk]
      exact ih h

theorem lookupKey_eraseKey_self {reg : Registry} {u : String}
    (h : (reg.map Prod.fst).Nodup) : lookupKey (eraseKey reg u) u = none := by
  induction reg with
  | nil => rfl
  | cons p rest ih =>
    obtain ⟨k, v⟩ := p
    simp only [List.map_cons, List.nodup_cons] at h
    by_cases hk : k = u
    · subst hk
      simp only [eraseKey, if_pos rfl]
      exact lookupKey_eq_none h.1
    · simp only [eraseKey, if_neg hk, lookupKey, if_neg hk]
      exact ih h.2

theorem setKey_setKey (reg : Registry) (u : String) (a b : List String) :
    setKey (setKey reg u a) u b = setKey reg u b := by
  induction reg with
  | nil => rfl
  | cons p rest ih =>
    obtain ⟨k, v⟩ := p
    by_cases hk : k = u
    · simp [setKey, if_pos hk]
    · simp [setKey, if_neg hk, ih]

theorem erase_eq_nil_iff {ss : List String} (hne : ss ≠ []) (s : String) :
    ss.erase s = [] ↔ ss = [s] := by
  cases ss with
  | nil => exact absurd rfl hne
  | cons a t =>
    by_cases ha : a = s
    · subst ha
      simp [List.erase_cons_head]
    · rw [List.erase_cons_tail (by simpa using ha)]
      simp [ha]

/-! ### Claim theorems: registry and presence -/

/-- C10: starting from the empty registry, after any sequence of
`addConnectedUser` / `removeConnectedUser` steps no userId key maps to an
empty socket-id set, and `isUserConnected(userId)` holds exactly when some
(necessarily nonempty) socket set is registered for that user. -/
theorem registry_key_iff_nonempty (ops : List RegOp) :
    (∀ u ss, lookupKey (runOps [] ops).1 u = some ss → ss ≠ []) ∧
    (∀ u, isUserConnected (runOps [] ops).1 u = true ↔
       ∃ ss, lookupKey (runOps [] ops).1 u = some ss ∧ ss ≠ []) := by
  have hwf : RegWF (runOps [] ops).1 :=
    regWF_runOps ⟨by simp, by simp⟩ ops
  constructor
  · intro u ss h
    exact (hwf.2 _ (lookupKey_mem h)).1
  · intro u
    unfold isUserConnected
    rw [Option.isSome_iff_exists]
    constructor
    · rintro ⟨ss, hss⟩
      exact ⟨ss, hss, (hwf.2 _ (lookupKey_mem hss)).1⟩
    · rintro ⟨ss, hss, _⟩
      exact ⟨ss, hss⟩

theorem registry_key_iff_nonempty_witness :
    (["s2"] : List String) ≠ [] ∧
    (isUserConnected (runOps [] [.connect "u" "o" "s1", .connect "u" "o" "s2",
        .disconnect "u" "o" "s1"]).1 "u" = true ↔
      ∃ ss, lookupKey (runOps [] [.connect "u" "o" "s1", .connect "u" "o" "s2",
        .disconnect "u" "o" "s1"]).1 "u" = some ss ∧ ss ≠ []) :=
  ⟨(registry_key_iff_nonempty [.connect "u" "o" "s1", .connect "u" "o" "s2",
      .disconnect "u" "o" "s1"]).1 "u" ["s2"] (by decide),
   (registry_key_iff_nonempty [.connect "u" "o" "s1", .connect "u" "o" "s2",
      .disconnect "u" "o" "s1"]).2 "u"⟩

/-- C1 (counterexample): a principal opening a second simultaneous
connection *does* re-announce: the trace `connect(u1,s1); connect(u1,s2)`
produces two `user:online` broadcasts for `u1`, not one — the `connection`
handler broadcasts `user:online` unconditionally, with no
zero-to-one-transition guard. -/
theorem second_connection_reannounces_online :
    countEvents (runOps [] [.connect "u1" "o1" "s1",
        .connect "u1" "o1" "s2"]).2 "user:online" "u1" = 2 ∧
    countEvents (runOps [] [.connect "u1" "o1" "s1",
        .connect "u1" "o1" "s2"]).2 "user:online" "u1" ≠ 1 := by
  constructor
  · decide
  · decide

/-- C1 (amended): an `user:online` broadcast to the organization room is
produced on *every* connection a principal opens (so a second simultaneous
connection re-announces), never for other principals, and exactly one
`user:offline` broadcast is produced by a disconnect precisely when the
closing socket was the principal's last remaining tracked connection. -/
theorem online_every_connection_offline_on_last (reg : Registry) (u o s : String)
    (hwf : RegWF reg) (ss : List String) (hss : lookupKey reg u = some ss) :
    countEvents (connectStep reg u o s).2 "user:online" u = 1 ∧
    (∀ v, v ≠ u → countEvents (connectStep reg u o s).2 "user:online" v = 0) ∧
    countEvents (disconnectStep reg u o s).2 "user:offline" u =
      (if ss = [s] then 1 else 0) := by
  refine ⟨by simp [connectStep, countEvents], ?_, ?_⟩
  · intro v hv
    simp [connectStep, countEvents, Ne.symm hv]
  · have hne : ss ≠ [] := (hwf.2 _ (lookupKey_mem hss)).1
    unfold disconnectStep removeConnectedUser
    rw [hss]
    simp only
    by_cases he : ss.erase s = []
    · have h1 : lookupKey (eraseKey reg u) u = none := lookupKey_eraseKey_self hwf.1
      have h2 : ss = [s] := (erase_eq_nil_iff hne s).mp he
      simp [he, isUserConnected, h1, h2, countEvents]
    · have h1 : lookupKey (setKey reg u (ss.erase s)) u = some (ss.erase s) :=
        lookupKey_setKey_self hss _
      have h2 : ss ≠ [s] := fun h => he (by rw [h]; simp [List.erase_cons_head])
      simp [he, isUserConnected, h1, h2, countEvents]

theorem online_every_connection_offline_on_last_witness :
    countEvents (connectStep [("u", ["s"])] "u" "o" "s").2 "user:online" "u" = 1 ∧
    (∀ v, v ≠ "u" → countEvents (connectStep [("u", ["s"])] "u" "o" "s").2 "user:online" v = 0) ∧
    countEvents (disconnectStep [("u", ["s"])] "u" "o" "s").2 "user:offline" "u" =
      (if (["s"] : List String) = ["s"] then 1 else 0) :=
  online_every_connection_offline_on_last [("u", ["s"])] "u" "o" "s"
    ⟨by decide, by decide⟩ ["s"] (by decide)

/-- C9 (counterexample): running the disconnect step a second time on a
connection whose socket was already removed is *not* equivalent to running
it once: the trace `connect(u1,s1); disconnect(u1,s1); disconnect(u1,s1)`
produces two `user:offline` broadcasts — the handler re-broadcasts
`user:offline` whenever the user is untracked after removal, with no guard
that this step actually removed anything. -/
theorem double_disconnect_duplicates_offline :
    countEvents (runOps [] [.connect "u1" "o1" "s1", .disconnect "u1" "o1" "s1",
        .disconnect "u1" "o1" "s1"]).2 "user:offline" "u1" = 2 ∧
    (disconnectStep [] "u1" "o1" "s1").2 ≠ [] := by
  constructor
  · decide
  · decide

/-- C9 (amended): the disconnect step is a total function (never raises),
its registry effect is idempotent — disconnecting the same socket twice
leaves the same registry as once, and disconnecting a never-registered
user leaves the registry unchanged — but its broadcast effect is not
silent: it emits a `user:offline` broadcast exactly when the user is
untracked after the removal, so a repeated or never-registered disconnect
re-emits `user:offline`. -/
theorem disconnect_registry_idempotent (reg : Registry) (u o s : String)
    (hwf : RegWF reg) :
    (disconnectStep reg u o s).1 = removeConnectedUser reg u s ∧
    removeConnectedUser (removeConnectedUser reg u s) u s = removeConnectedUser reg u s ∧
    (lookupKey reg u = none → (disconnectStep reg u o s).1 = reg) ∧
    ((disconnectStep reg u o s).2 ≠ [] ↔
      isUserConnected (removeConnectedUser reg u s) u = false) := by
  refine ⟨rfl, ?_, ?_, ?_⟩
  · unfold removeConnectedUser
    cases hl : lookupKey reg u with
    | none => simp [hl]
    | some ss =>
      simp only
      by_cases he : ss.erase s = []
      · rw [if_pos he]
        rw [lookupKey_eraseKey_self hwf.1]
      · rw [if_neg he]
        rw [lookupKey_setKey_self hl]
        simp only
        have hnodup : ss.Nodup := (hwf.2 _ (lookupKey_mem hl)).2
        have hnotmem : s ∉ ss.erase s := hnodup.not_mem_erase
        rw [List.erase_of_not_mem hnotmem, if_neg he, setKey_setKey]
  · intro h
    simp [disconnectStep, removeConnectedUser, h]
  · unfold disconnectStep
    simp only
    by_cases hc : isUserConnected (removeConnectedUser reg u s) u
    · simp [hc]
    · simp only [Bool.not_eq_true] at hc
      simp [hc]

theorem disconnect_registry_idempotent_witness :
    (disconnectStep [] "u" "o" "s").1 = removeConnectedUser [] "u" "s" ∧
    removeConnectedUser (removeConnectedUser [] "u" "s") "u" "s" =
      removeConnectedUser [] "u" "s" ∧
    (lookupKey [] "u" = none → (disconnectStep [] "u" "o" "s").1 = []) ∧
    ((disconnectStep [] "u" "o" "s").2 ≠ [] ↔
      isUserConnected (removeConnectedUser [] "u" "s") "u" = false) :=
  disconnect_registry_idempotent [] "u" "o" "s" ⟨by simp, by simp⟩

/-! ### Rooms and local delivery

Room names as the source builds them (template strings in
`socketServer.ts`, `userEvents.ts`, `notificationEvents.ts`), and the
socket.io delivery semantics: `io.to(room).emit` reaches every local
connection currently in the room, `socket.to(room).emit` the same minus
the emitting socket. -/

def orgRoom (orgId : String) : String := "org:" ++ orgId

def userRoom (userId : String) : String := "user:" ++ userId

def adminsRoom (orgId : String) : String := "org:" ++ orgId ++ ":admins"

def managersRoom (orgId : String) : String := "org:" ++ orgId ++ ":managers"

def notifyRoom (channel : String) : String := "notify:" ++ channel

/-- A live, authenticated connection on this instance.
`subscribedChannels` are the channels passed to a
`notifications:subscribe` inbound message (the only inbound message that
joins rooms). -/
structure Conn where
  userId : String
  organizationId : String
  role : String
  socketId : String
  subscribedChannels : List String
  deriving DecidableEq, Repr

/-- The rooms a connection is in: the automatic joins of the `connection`
handler (socketServer.ts 128–129), the role-room joins of
`handleUserEvents` (userEvents.ts 213–218: `org:{id}:admins` for
`org_admin`/`system_admin`, `org:{id}:managers` for `manager`/
`org_admin`/`system_admin`), and the ad hoc `notify:{channel}` joins of
`notifications:subscribe` (notificationEvents.ts 47–56). -/
def joinedRooms (c : Conn) : List String :=
  [orgRoom c.organizationId, userRoom c.userId] ++
  (if c.role = "org_admin" ∨ c.role = "system_admin"
     then [adminsRoom c.organizationId] else []) ++
  (if c.role = "manager" ∨ c.role = "org_admin" ∨ c.role = "system_admin"
     then [managersRoom c.organizationId] else []) ++
  c.subscribedChannels.map notifyRoom

/-- `io.to(room).emit(...)`: the local connections the event reaches. -/
def roomRecipients (conns : List Conn) (room : String) : List Conn :=
  conns.filter (fun c => room ∈ joinedRooms c)

/-- `socket.to(room).emit(...)`: as `io.to` but never the emitting socket. -/
def socketToRecipients (conns : List Conn) (sender : Conn) (room : String) : List Conn :=
  conns.filter (fun c => room ∈ joinedRooms c ∧ c.socketId ≠ sender.socketId)

/-- The `inventory:filter:update` inbound handler (inventoryEvents.ts
33–40): `socket.to('org:' + socket.organizationId).emit('inventory:filter:changed', …)`. -/
def filterUpdateRecipients (conns : List Conn) (sender : Conn) : List Conn :=
  socketToRecipients conns sender (orgRoom sender.organizationId)

/-- Ids generated by the database layer (uuids) contain no `':'`; room
names are built by joining id segments with `':'`, so this is what keeps
distinct rooms distinct. -/
def ColonFree (s : String) : Prop := ':' ∉ s.data

instance : DecidablePred ColonFree := fun s =>
  inferInstanceAs (Decidable (':' ∉ s.data))

theorem orgRoom_inj {a b : String} (h : orgRoom a = orgRoom b) : a = b := by
  unfold orgRoom at h
  have hd := congrArg String.data h
  rw [String.data_append, String.data_append] at hd
  exact String.ext (List.append_cancel_left hd)

theorem orgRoom_ne_userRoom (a b : String) : orgRoom a ≠ userRoom b := by
  intro h
  have hd := congrArg String.data h
  unfold orgRoom userRoom at hd
  rw [String.data_append, String.data_append] at hd
  have : ('o' : Char) = 'u' := by
    have h1 : ("org:" : String).data ++ a.data ≠ [] := by simp
    have := congrArg (fun l => l.headI) hd
    simpa using this
  exact absurd this (by decide)

theorem orgRoom_ne_notifyRoom (a b : String) : orgRoom a ≠ notifyRoom b := by
  intro h
  have hd := congrArg String.data h
  unfold orgRoom notifyRoom at hd
  rw [String.data_append, String.data_append] at hd
  have : ('o' : Char) = 'n' := by
    have := congrArg (fun l => l.headI) hd
    simpa using this
  exact absurd this (by decide)

theorem orgRoom_ne_adminsRoom {a : String} (ha : ColonFree a) (b : String) :
    orgRoom a ≠ adminsRoom b := by
  intro h
  have hd := congrArg String.data h
  unfold orgRoom adminsRoom at hd
  rw [String.data_append, String.data_append, String.data_append] at hd
  have hab : a.data = b.data ++ (":admins" : String).data :=
    List.append_cancel_left hd
  apply ha
  rw [hab]
  refine List.mem_append.mpr (Or.inr ?_)
  decide

theorem orgRoom_ne_managersRoom {a : String} (ha : ColonFree a) (b : String) :
    orgRoom a ≠ managersRoom b := by
  intro h
  have hd := congrArg String.data h
  unfold orgRoom managersRoom at hd
  rw [String.data_append, String.data_append, String.data_append] at hd
  have hab : a.data = b.data ++ (":managers" : String).data :=
    List.append_cancel_left hd
  apply ha
  rw [hab]
  refine List.mem_append.mpr (Or.inr ?_)
  decide

theorem managersRoom_ne_userRoom (a b : String) : managersRoom a ≠ userRoom b := by
  intro h
  have hd := congrArg String.data h
  unfold managersRoom userRoom at hd
  rw [String.data_append, String.data_append, String.data_append] at hd
  have : ('o' : Char) = 'u' := by
    have := congrArg (fun l => l.headI) hd
    simpa using this
  exact absurd this (by decide)

theorem managersRoom_ne_notifyRoom (a b : String) : managersRoom a ≠ notifyRoom b := by
  intro h
  have hd := congrArg String.data h
  unfold managersRoom notifyRoom at hd
  rw [String.data_append, String.data_append, String.data_append] at hd
  have : ('o' : Char) = 'n' := by
    have := congrArg (fun l => l.headI) hd
    simpa using this
  exact absurd this (by decide)

/-- An organization room of org `x` is not among the rooms of a connection
whose principal belongs to a different organization (ids colon-free). -/
theorem orgRoom_not_joined_of_other_org {x : String} (hx : ColonFree x)
    {c : Conn} (hco : c.organizationId ≠ x) :
    orgRoom x ∉ joinedRooms c := by
  intro hmem
  unfold joinedRooms at hmem
  rcases List.mem_append.mp hmem with h | h
  · rcases List.mem_append.mp h with h | h
    · rcases List.mem_append.mp h with h | h
      · simp only [List.mem_cons] at h
        rcases h with h | h | h
        · exact hco (orgRoom_inj h).symm
        · exact orgRoom_ne_userRoom _ _ h
        · exact absurd h (List.not_mem_nil _)
      · by_cases hr : c.role = "org_admin" ∨ c.role = "system_admin"
        · rw [if_pos hr] at h
          simp only [List.mem_singleton] at h
          exact orgRoom_ne_adminsRoom hx _ h
        · rw [if_neg hr] at h
          exact absurd h (List.not_mem_nil _)
    · by_cases hr : c.role = "manager" ∨ c.role = "org_admin" ∨ c.role = "system_admin"
      · rw [if_pos hr] at h
        simp only [List.mem_singleton] at h
        exact orgRoom_ne_managersRoom hx _ h
      · rw [if_neg hr] at h
        exact absurd h (List.not_mem_nil _)
  · rcases List.mem_map.mp h with ⟨ch, _, hch⟩
    exact orgRoom_ne_notifyRoom _ _ hch.symm

theorem adminsRoom_ne_userRoom (a b : String) : adminsRoom a ≠ userRoom b := by
  intro h
  have hd := congrArg String.data h
  unfold adminsRoom userRoom at hd
  rw [String.data_append, String.data_append, String.data_append] at hd
  have : ('o' : Char) = 'u' := by
    have := congrArg (fun l => l.headI) hd
    simpa using this
  exact absurd this (by decide)

theorem adminsRoom_ne_notifyRoom (a b : String) : adminsRoom a ≠ notifyRoom b := by
  intro h
  have hd := congrArg String.data h
  unfold adminsRoom notifyRoom at hd
  rw [String.data_append, String.data_append, String.data_append] at hd
  have : ('o' : Char) = 'n' := by
    have := congrArg (fun l => l.headI) hd
    simpa using this
  exact absurd this (by decide)

theorem adminsRoom_ne_managersRoom_same (a : String) :
    adminsRoom a ≠ managersRoom a := by
  intro h
  have hd := congrArg String.data h
  unfold adminsRoom managersRoom at hd
  rw [String.data_append, String.data_append, String.data_append,
    String.data_append] at hd
  have h2 : (":admins" : String).data = (":managers" : String).data :=
    List.append_cancel_left hd
  exact absurd h2 (by decide)

/-- A manager room is not among the rooms of a connection whose role
triggers neither role-room join (e.g. role `"user"`). -/
theorem managersRoom_not_joined {x : String} {c : Conn}
    (hco : ColonFree c.organizationId)
    (hr1 : ¬(c.role = "org_admin" ∨ c.role = "system_admin"))
    (hr2 : ¬(c.role = "manager" ∨ c.role = "org_admin" ∨ c.role = "system_admin")) :
    managersRoom x ∉ joinedRooms c := by
  intro hmem
  unfold joinedRooms at hmem
  rw [if_neg hr1, if_neg hr2] at hmem
  rcases List.mem_append.mp hmem with h | h
  · rcases List.mem_append.mp h with h | h
    · rcases List.mem_append.mp h with h | h
      · simp only [List.mem_cons] at h
        rcases h with h | h | h
        · exact orgRoom_ne_managersRoom hco x h.symm
        · exact managersRoom_ne_userRoom _ _ h
        · exact absurd h (List.not_mem_nil _)
      · exact absurd h (List.not_mem_nil _)
    · exact absurd h (List.not_mem_nil _)
  · rcases List.mem_map.mp h with ⟨ch, _, hch⟩
    exact managersRoom_ne_notifyRoom _ _ hch.symm

/-- C8: role rooms are assigned strictly additively at connect time: a
`manager` connection is in the manager room; `org_admin` and
`system_admin` connections are in both the manager room and the admin
room; a `user` connection is in neither, and hence a user-role connection
is never among the recipients of any manager-room broadcast, whatever
inbound messages (including `notifications:subscribe` joins) it has sent.
Organization ids are colon-free (they are uuids). -/
theorem role_rooms_strictly_additive (c : Conn) (hco : ColonFree c.organizationId) :
    (managersRoom c.organizationId ∈ joinedRooms c ↔
       c.role = "manager" ∨ c.role = "org_admin" ∨ c.role = "system_admin") ∧
    (adminsRoom c.organizationId ∈ joinedRooms c ↔
       c.role = "org_admin" ∨ c.role = "system_admin") ∧
    (c.role = "user" → ∀ (conns : List Conn) (x : String),
       c ∉ roomRecipients conns (managersRoom x)) := by
  refine ⟨?_, ?_, ?_⟩
  · constructor
    · intro hmem
      by_cases hr2 : c.role = "manager" ∨ c.role = "org_admin" ∨ c.role = "system_admin"
      · exact hr2
      · have hr1 : ¬(c.role = "org_admin" ∨ c.role = "system_admin") := by
          intro h; exact hr2 (Or.inr h)
        exact absurd hmem (managersRoom_not_joined hco hr1 hr2)
    · intro hr2
      unfold joinedRooms
      rw [if_pos hr2]
      refine List.mem_append.mpr (Or.inl ?_)
      refine List.mem_append.mpr (Or.inr ?_)
      exact List.mem_singleton.mpr rfl
  · constructor
    · intro hmem
      by_cases hr1 : c.role = "org_admin" ∨ c.role = "system_admin"
      · exact hr1
      · exfalso
        unfold joinedRooms at hmem
        rw [if_neg hr1] at hmem
        rcases List.mem_append.mp hmem with h | h
        · rcases List.mem_append.mp h with h | h
          · rcases List.mem_append.mp h with h | h
            · simp only [List.mem_cons] at h
              rcases h with h | h | h
              · exact orgRoom_ne_adminsRoom hco _ h.symm
              · exact adminsRoom_ne_userRoom _ _ h
              · exact absurd h (List.not_mem_nil _)
            · exact absurd h (List.not_mem_nil _)
          · by_cases hr2 : c.role = "manager" ∨ c.role = "org_admin" ∨ c.role = "system_admin"
            · rw [if_pos hr2] at h
              simp only [List.mem_singleton] at h
              exact adminsRoom_ne_managersRoom_same _ h
            · rw [if_neg hr2] at h
              exact absurd h (List.not_mem_nil _)
        · rcases List.mem_map.mp h with ⟨ch, _, hch⟩
          exact adminsRoom_ne_notifyRoom _ _ hch.symm
    · intro hr1
      unfold joinedRooms
      rw [if_pos hr1]
      refine List.mem_append.mpr (Or.inl ?_)
      refine List.mem_append.mpr (Or.inl ?_)
      refine List.mem_append.mpr (Or.inr ?_)
      exact List.mem_singleton.mpr rfl
  · intro hrole conns x hmem
    have hr1 : ¬(c.role = "org_admin" ∨ c.role = "system_admin") := by
      rw [hrole]; decide
    have hr2 : ¬(c.role = "manager" ∨ c.role = "org_admin" ∨ c.role = "system_admin") := by
      rw [hrole]; decide
    unfold roomRecipients at hmem
    have := List.of_mem_filter hmem
    simp only [decide_eq_true_eq] at this
    exact managersRoom_not_joined hco hr1 hr2 this

theorem role_rooms_strictly_additive_witness :
    (managersRoom "O1" ∈ joinedRooms ⟨"u1", "O1", "manager", "s1", []⟩ ↔
       ("manager" : String) = "manager" ∨ ("manager" : String) = "org_admin" ∨
         ("manager" : String) = "system_admin") ∧
    (adminsRoom "O1" ∈ joinedRooms ⟨"u1", "O1", "manager", "s1", []⟩ ↔
       ("manager" : String) = "org_admin" ∨ ("manager" : String) = "system_admin") ∧
    (("manager" : String) = "user" → ∀ (conns : List Conn) (x : String),
       (⟨"u1", "O1", "manager", "s1", []⟩ : Conn) ∉ roomRecipients conns (managersRoom x)) :=
  role_rooms_strictly_additive ⟨"u1", "O1", "manager", "s1", []⟩ (by decide)

/-- C7 (counterexample): a `filter-update`-triggered broadcast is *not*
delivered to every connection currently joined to the target room: the
handler uses `socket.to(...)`, which excludes the emitting socket, so the
sender — itself a member of the organization room — does not receive the
event while another member does. -/
theorem filter_update_excludes_sender :
    orgRoom "X" ∈ joinedRooms ⟨"u1", "X", "user", "sA", []⟩ ∧
    (⟨"u1", "X", "user", "sA", []⟩ : Conn) ∉
      filterUpdateRecipients
        [⟨"u1", "X", "user", "sA", []⟩, ⟨"u2", "X", "user", "sB", []⟩]
        ⟨"u1", "X", "user", "sA", []⟩ ∧
    (⟨"u2", "X", "user", "sB", []⟩ : Conn) ∈
      filterUpdateRecipients
        [⟨"u1", "X", "user", "sA", []⟩, ⟨"u2", "X", "user", "sB", []⟩]
        ⟨"u1", "X", "user", "sA", []⟩ := by
  refine ⟨by decide, by decide, by decide⟩

/-- C7 (amended): `io.to`-style room broadcasts reach exactly the local
connections joined to the room (hence a locally empty room means no
recipients), while an inbound-triggered `filter-update` broadcast reaches
exactly the room members *other than the emitting connection*; in both
forms no connection whose principal belongs to a different (colon-free
id) organization receives an organization-room broadcast. -/
theorem room_broadcast_scoping (conns : List Conn) (sender : Conn) (room : String) :
    (∀ c, c ∈ roomRecipients conns room ↔ c ∈ conns ∧ room ∈ joinedRooms c) ∧
    (∀ c, c ∈ filterUpdateRecipients conns sender ↔
       c ∈ conns ∧ orgRoom sender.organizationId ∈ joinedRooms c ∧
         c.socketId ≠ sender.socketId) ∧
    ((∀ c ∈ conns, room ∉ joinedRooms c) → roomRecipients conns room = []) ∧
    (∀ x, ColonFree x → ∀ c : Conn, c.organizationId ≠ x →
       c ∉ roomRecipients conns (orgRoom x)) ∧
    (ColonFree sender.organizationId →
       ∀ c : Conn, c.organizationId ≠ sender.organizationId →
         c ∉ filterUpdateRecipients conns sender) := by
  refine ⟨?_, ?_, ?_, ?_, ?_⟩
  · intro c
    simp [roomRecipients, List.mem_filter]
  · intro c
    simp [filterUpdateRecipients, socketToRecipients, List.mem_filter, and_assoc]
  · intro hall
    unfold roomRecipients
    rw [List.filter_eq_nil]
    intro c hc
    simp only [decide_eq_true_eq]
    exact hall c hc
  · intro x hx c hcx hmem
    unfold roomRecipients at hmem
    have := List.of_mem_filter hmem
    simp only [decide_eq_true_eq] at this
    exact orgRoom_not_joined_of_other_org hx hcx this
  · intro hx c hcx hmem
    unfold filterUpdateRecipients socketToRecipients at hmem
    have := List.of_mem_filter hmem
    simp only [decide_eq_true_eq] at this
    exact orgRoom_not_joined_of_other_org hx hcx this.1

theorem room_broadcast_scoping_witness :
    (⟨"u3", "Y", "user", "sC", []⟩ : Conn) ∉
      roomRecipients [⟨"u3", "Y", "user", "sC", []⟩] (orgRoom "X") :=
  ((room_broadcast_scoping [⟨"u3", "Y", "user", "sC", []⟩]
      ⟨"u1", "X", "user", "sA", []⟩ (orgRoom "X")).2.2.2.1
    "X" (by decide) ⟨"u3", "Y", "user", "sC", []⟩ (by decide))

/-! ### Inventory emitters (inventoryEvents.ts) and the route emit blocks
(routes/inventory.ts) -/

/-- The fields of an inventory item the emit blocks look at.
Quantities are `Nat`: the zod schemas require nonnegative integers. -/
structure Item where
  id : String
  quantity : Nat
  minQuantity : Nat
  deriving DecidableEq, Repr

/-- A room-targeted `emit`: target room and event name. -/
structure Broadcast where
  room : String
  event : String
  deriving DecidableEq, Repr

/-- `emitQuantityChanged` (inventoryEvents.ts 96–109):
`inventory:quantity:changed` to the org room, then
`inventory:outofstock:alert` to the org room whenever
`data.newQuantity <= 0` — with no look at `previousQuantity`. -/
def emitQuantityChanged (organizationId : String) (previousQuantity newQuantity : Nat) :
    List Broadcast :=
  [⟨orgRoom organizationId, "inventory:quantity:changed"⟩] ++
  (if newQuantity ≤ 0 then [⟨orgRoom organizationId, "inventory:outofstock:alert"⟩] else [])

/-- `emitLowStockAlert` (inventoryEvents.ts 111–113):
`inventory:lowstock:alert` to the *organization* room. -/
def emitLowStockAlert (organizationId : String) : List Broadcast :=
  [⟨orgRoom organizationId, "inventory:lowstock:alert"⟩]

/-- `emitInventoryCreated` / `emitInventoryMovement` /
`emitOutOfStockAlert` (inventoryEvents.ts 81–83, 115–117, 136–138). -/
def emitInventoryCreated (organizationId : String) : List Broadcast :=
  [⟨orgRoom organizationId, "inventory:item:created"⟩]

def emitInventoryMovement (organizationId : String) : List Broadcast :=
  [⟨orgRoom organizationId, "inventory:movement:created"⟩]

def emitOutOfStockAlert (organizationId : String) : List Broadcast :=
  [⟨orgRoom organizationId, "inventory:outofstock:alert"⟩]

/-- The WebSocket emit block of `POST /` (create item,
routes/inventory.ts 166–179): `emitInventoryCreated`,
`emitInventoryMovement` for the initial stock movement, then
`emitLowStockAlert` if `newItem.quantity <= newItem.minQuantity`. -/
def createItemEmits (organizationId : String) (newItem : Item) : List Broadcast :=
  emitInventoryCreated organizationId ++
  emitInventoryMovement organizationId ++
  (if newItem.quantity ≤ newItem.minQuantity then emitLowStockAlert organizationId else [])

/-- The WebSocket emit block of `POST /:itemId/quantity`
(routes/inventory.ts 289–313): `emitQuantityChanged` with the before/after
quantities, `emitInventoryMovement` when a movement was recorded
(`quantityDiff !== 0`), then `emitLowStockAlert` on a low-stock crossing
(`quantity <= minQuantity && item.quantity > minQuantity`), else
`emitOutOfStockAlert` on an out-of-stock crossing
(`quantity === 0 && item.quantity > 0`). -/
def quantityUpdateEmits (organizationId : String) (item : Item) (quantity : Nat) :
    List Broadcast :=
  emitQuantityChanged organizationId item.quantity quantity ++
  (if quantity ≠ item.quantity then emitInventoryMovement organizationId else []) ++
  (if quantity ≤ item.minQuantity ∧ item.quantity > item.minQuantity
     then emitLowStockAlert organizationId
   else if quantity = 0 ∧ item.quantity > 0
     then emitOutOfStockAlert organizationId
   else [])

/-- C2 (counterexample): updating an item's quantity from 0 to 0 *does*
produce an out-of-stock re-alert: `emitQuantityChanged` broadcasts
`inventory:outofstock:alert` whenever the new quantity is ≤ 0, without
checking that the previous quantity was positive. -/
theorem zero_to_zero_realerts :
    (⟨orgRoom "O1", "inventory:outofstock:alert"⟩ : Broadcast) ∈
      quantityUpdateEmits "O1" ⟨"I", 0, 10⟩ 0 := by decide

/-- C2 (amended): every quantity update broadcasts
`inventory:quantity:changed` to the organization room, and at least one
`inventory:outofstock:alert` is broadcast if and only if the *new*
quantity is 0, irrespective of the previous quantity — so a 0 → 0 update
does re-alert (and a crossing from a quantity above `minQuantity` to 0
even alerts twice). -/
theorem quantity_update_alerts (organizationId : String) (item : Item) (quantity : Nat) :
    (⟨orgRoom organizationId, "inventory:quantity:changed"⟩ : Broadcast) ∈
      quantityUpdateEmits organizationId item quantity ∧
    ((⟨orgRoom organizationId, "inventory:outofstock:alert"⟩ : Broadcast) ∈
       quantityUpdateEmits organizationId item quantity ↔ quantity = 0) := by
  constructor
  · simp [quantityUpdateEmits, emitQuantityChanged]
  · constructor
    · intro h
      unfold quantityUpdateEmits emitQuantityChanged emitInventoryMovement
        emitLowStockAlert emitOutOfStockAlert at h
      simp only [List.mem_append] at h
      rcases h with (h | h) | h
      · split_ifs at h with h1
        · exact Nat.le_zero.mp h1
        · simp at h
      · split_ifs at h with h1
        · simp at h
        · simp at h
      · split_ifs at h with h1 h2
        · simp at h
        · exact h2.1
        · simp at h
    · intro h
      subst h
      unfold quantityUpdateEmits emitQuantityChanged
      simp

/-- C3 (counterexample): on creating an item with quantity ≤ minQuantity
the low-stock alert is broadcast to the *organization* room, not to the
organization's manager room: no emit of the create-item block targets
`org:O1:managers`, and a plain user-role connection of O1 — which is not
in the manager room — is among the recipients of the alert's target room. -/
theorem lowstock_alert_targets_org_room :
    (⟨orgRoom "O1", "inventory:lowstock:alert"⟩ : Broadcast) ∈
      createItemEmits "O1" ⟨"I", 5, 10⟩ ∧
    (∀ b ∈ createItemEmits "O1" ⟨"I", 5, 10⟩, b.room ≠ managersRoom "O1") ∧
    (⟨"u4", "O1", "user", "s4", []⟩ : Conn) ∈
      roomRecipients [⟨"u4", "O1", "user", "s4", []⟩] (orgRoom "O1") ∧
    managersRoom "O1" ∉ joinedRooms ⟨"u4", "O1", "user", "s4", []⟩ := by
  refine ⟨by decide, by decide, by decide, by decide⟩

/-- C3 (amended): creating an item broadcasts `inventory:item:created` to
the creating principal's organization room and, exactly when
quantity ≤ minQuantity, `inventory:lowstock:alert` — likewise to the
organization room; every connection of that organization (manager-role
ones included) is among the recipients, and no connection of any other
(colon-free id) organization is. -/
theorem create_item_emits (organizationId : String) (newItem : Item)
    (hco : ColonFree organizationId) :
    (⟨orgRoom organizationId, "inventory:item:created"⟩ : Broadcast) ∈
      createItemEmits organizationId newItem ∧
    ((⟨orgRoom organizationId, "inventory:lowstock:alert"⟩ : Broadcast) ∈
       createItemEmits organizationId newItem ↔
         newItem.quantity ≤ newItem.minQuantity) ∧
    (∀ b ∈ createItemEmits organizationId newItem, b.room = orgRoom organizationId) ∧
    (∀ (conns : List Conn) (c : Conn), c ∈ conns → c.organizationId = organizationId →
       c ∈ roomRecipients conns (orgRoom organizationId)) ∧
    (∀ (conns : List Conn) (c : Conn), c.organizationId ≠ organizationId →
       c ∉ roomRecipients conns (orgRoom organizationId)) := by
  refine ⟨?_, ?_, ?_, ?_, ?_⟩
  · simp [createItemEmits, emitInventoryCreated]
  · constructor
    · intro h
      unfold createItemEmits emitInventoryCreated emitInventoryMovement
        emitLowStockAlert at h
      simp only [List.mem_append] at h
      rcases h with (h | h) | h
      · simp at h
      · simp at h
      · split_ifs at h with h1
        · exact h1
        · simp at h
    · intro h
      unfold createItemEmits emitLowStockAlert
      rw [if_pos h]
      simp
  · intro b hb
    unfold createItemEmits emitInventoryCreated emitInventoryMovement
      emitLowStockAlert at hb
    simp only [List.mem_append] at hb
    rcases hb with (hb | hb) | hb
    · simp only [List.mem_singleton] at hb; rw [hb]
    · simp only [List.mem_singleton] at hb; rw [hb]
    · split_ifs at hb
      · simp only [List.mem_singleton] at hb; rw [hb]
      · simp at hb
  · intro conns c hc hco'
    unfold roomRecipients
    apply List.mem_filter.mpr
    refine ⟨hc, ?_⟩
    simp only [decide_eq_true_eq]
    rw [← hco']
    unfold joinedRooms
    exact List.mem_append.mpr (Or.inl (List.mem_append.mpr (Or.inl
      (List.mem_append.mpr (Or.inl (List.mem_cons_self _ _))))))
  · intro conns c hcx hmem
    unfold roomRecipients at hmem
    have := List.of_mem_filter hmem
    simp only [decide_eq_true_eq] at this
    exact orgRoom_not_joined_of_other_org hco hcx this

theorem create_item_emits_witness :
    (⟨orgRoom "O1", "inventory:item:created"⟩ : Broadcast) ∈
      createItemEmits "O1" ⟨"I", 5, 10⟩ ∧
    ((⟨orgRoom "O1", "inventory:lowstock:alert"⟩ : Broadcast) ∈
       createItemEmits "O1" ⟨"I", 5, 10⟩ ↔ (5 : Nat) ≤ 10) ∧
    (∀ b ∈ createItemEmits "O1" ⟨"I", 5, 10⟩, b.room = orgRoom "O1") ∧
    (∀ (conns : List Conn) (c : Conn), c ∈ conns → c.organizationId = "O1" →
       c ∈ roomRecipients conns (orgRoom "O1")) ∧
    (∀ (conns : List Conn) (c : Conn), c.organizationId ≠ "O1" →
       c ∉ roomRecipients conns (orgRoom "O1")) :=
  create_item_emits "O1" ⟨"I", 5, 10⟩ (by decide)

/-! ### Cross-instance relay (Redis pub/sub, socketServer.ts 49–71 and
194–211)

Each instance subscribes to the three fixed channels and dispatches a
received message to a local broadcast. The subscriber callback is pure
dispatch: its outputs are local emits only, never a `redis.publish`,
which we make explicit by letting the handler return both the local
broadcasts it fires and the (always empty) list of messages it puts back
on the bus. -/

/-- A local broadcast fired by this instance:
`io.to(room).emit(event, payload)` or `io.emit(event, payload)`. -/
inductive LocalBroadcast (α : Type) where
  | toRoom (room event : String) (payload : α)
  | toAll (event : String) (payload : α)
  deriving DecidableEq, Repr

/-- A parsed message from one of the three subscribed channels, shaped as
the corresponding publisher (`publishInventoryUpdate`,
`publishUserUpdate`, `publishNotification`) builds it. -/
inductive RelayMessage (α : Type) where
  | inventory (organizationId event : String) (payload : α)
  | user (userId event : String) (payload : α)
  | notification (ntype : String) (targetId : Option String) (event : String) (payload : α)
  deriving DecidableEq, Repr

def RelayMessage.event {α : Type} : RelayMessage α → String
  | .inventory _ ev _ => ev
  | .user _ ev _ => ev
  | .notification _ _ ev _ => ev

def RelayMessage.payload {α : Type} : RelayMessage α → α
  | .inventory _ _ p => p
  | .user _ _ p => p
  | .notification _ _ _ p => p

def LocalBroadcast.event {α : Type} : LocalBroadcast α → String
  | .toRoom _ ev _ => ev
  | .toAll ev _ => ev

def LocalBroadcast.payload {α : Type} : LocalBroadcast α → α
  | .toRoom _ _ p => p
  | .toAll _ p => p

/-- The `subscriber.on('message', …)` dispatch (socketServer.ts 52–66)
together with `broadcastNotification` (194–211): an `inventory:updates`
message goes to `broadcastToOrganization`, a `user:updates` message to
`broadcastToUser`, a `notifications` message through the
type switch (`organization` / `user` / `global`; any other type falls
through the switch and broadcasts nothing). The second component is what
the handler publishes back to the bus: nothing, ever. -/
def handleRelayMessage {α : Type} (m : RelayMessage α) :
    List (LocalBroadcast α) × List (RelayMessage α) :=
  match m with
  | .inventory organizationId ev p => ([.toRoom (orgRoom organizationId) ev p], [])
  | .user userId ev p => ([.toRoom (userRoom userId) ev p], [])
  | .notification ntype targetId ev p =>
    (if ntype = "organization" then [.toRoom (orgRoom (targetId.getD "")) ev p]
     else if ntype = "user" then [.toRoom (userRoom (targetId.getD "")) ev p]
     else if ntype = "global" then [.toAll ev p]
     else [], [])

/-- A notification message whose routing type the switch recognises. -/
def RelayMessage.KnownTarget {α : Type} : RelayMessage α → Prop
  | .inventory _ _ _ => True
  | .user _ _ _ => True
  | .notification ntype _ _ _ =>
      ntype = "organization" ∨ ntype = "user" ∨ ntype = "global"

/-- C6: the receiving instance never re-publishes a relayed message back
onto the bus (so a message published by instance A is handled once per
instance and cannot re-fire on A), and for every message with a
recognised routing target it fires exactly one local broadcast carrying
the original event name and payload — to the organization room, the
personal room, or everyone, as the decoded target dictates. -/
theorem relay_dispatch_no_loop {α : Type} (m : RelayMessage α)
    (hk : m.KnownTarget) :
    (handleRelayMessage m).2 = [] ∧
    (handleRelayMessage m).1.length = 1 ∧
    (∀ b ∈ (handleRelayMessage m).1,
       b.event = m.event ∧ b.payload = m.payload) ∧
    (∀ org ev p, handleRelayMessage (.inventory org ev p) =
       ([.toRoom (orgRoom org) ev p], ([] : List (RelayMessage α)))) ∧
    (∀ uid ev p, handleRelayMessage (.user uid ev p) =
       ([.toRoom (userRoom uid) ev p], ([] : List (RelayMessage α)))) ∧
    (∀ tid ev p, handleRelayMessage (.notification "global" tid ev p) =
       ([.toAll ev p], ([] : List (RelayMessage α)))) := by
  refine ⟨?_, ?_, ?_, fun _ _ _ => rfl, fun _ _ _ => rfl, fun _ _ _ => rfl⟩
  · cases m with
    | inventory org ev p => rfl
    | user uid ev p => rfl
    | notification t tid ev p => rfl
  · cases m with
    | inventory org ev p => rfl
    | user uid ev p => rfl
    | notification t tid ev p =>
      rcases hk with h | h | h <;> simp [handleRelayMessage, h]
  · intro b hb
    cases m with
    | inventory org ev p =>
      simp only [handleRelayMessage, List.mem_singleton] at hb
      subst hb
      exact ⟨rfl, rfl⟩
    | user uid ev p =>
      simp only [handleRelayMessage, List.mem_singleton] at hb
      subst hb
      exact ⟨rfl, rfl⟩
    | notification t tid ev p =>
      rcases hk with h | h | h <;> subst h <;>
        simp [handleRelayMessage] at hb <;>
        subst hb <;>
        exact ⟨rfl, rfl⟩

theorem relay_dispatch_no_loop_witness :
    (handleRelayMessage (RelayMessage.inventory "O1" "inventory:item:created"
        (42 : Nat))).2 = [] ∧
    (handleRelayMessage (RelayMessage.inventory "O1" "inventory:item:created"
        (42 : Nat))).1.length = 1 ∧
    (∀ b ∈ (handleRelayMessage (RelayMessage.inventory "O1"
        "inventory:item:created" (42 : Nat))).1,
       b.event = (RelayMessage.inventory "O1" "inventory:item:created"
         (42 : Nat)).event ∧
       b.payload = (RelayMessage.inventory "O1" "inventory:item:created"
         (42 : Nat)).payload) ∧
    (∀ org ev p, handleRelayMessage (.inventory org ev p) =
       ([.toRoom (orgRoom org) ev p], ([] : List (RelayMessage Nat)))) ∧
    (∀ uid ev p, handleRelayMessage (.user uid ev p) =
       ([.toRoom (userRoom uid) ev p], ([] : List (RelayMessage Nat)))) ∧
    (∀ tid ev p, handleRelayMessage (.notification "global" tid ev p) =
       ([.toAll ev p], ([] : List (RelayMessage Nat)))) :=
  relay_dispatch_no_loop (RelayMessage.inventory "O1" "inventory:item:created"
    (42 : Nat)) trivial

/-! ### Session validation: the HTTP `authenticate` middleware
(middleware/auth.ts 21–77) and the Gateway handshake middleware
(socketServer.ts 75–118)

`jwt.verify` is embedded as an abstract verifier
`String → Option TokenClaims` (it returns the decoded claims exactly for
tokens correctly signed with this service's secret, and throws — here
`none` — otherwise). The session/user tables are lists queried with
`find?`, matching the `select … where eq(id) limit 1` calls; `new Date()`
is an abstract instant `now : Nat`. -/

structure TokenClaims where
  userId : String
  sessionId : String
  deriving DecidableEq, Repr

structure SessionRec where
  id : String
  token : String
  expiresAt : Nat
  deriving DecidableEq, Repr

structure UserRec where
  id : String
  organizationId : String
  role : String
  isActive : Bool
  deriving DecidableEq, Repr

structure AuthEnv where
  verify : String → Option TokenClaims
  sessions : List SessionRec
  users : List UserRec
  now : Nat

def findSession (env : AuthEnv) (sessionId : String) : Option SessionRec :=
  env.sessions.find? (fun s => s.id == sessionId)

def findUser (env : AuthEnv) (userId : String) : Option UserRec :=
  env.users.find? (fun u => u.id == userId)

inductive HttpAuthResult where
  | ok (user : UserRec) (session : SessionRec)
  | err (status : Nat) (message : String)
  deriving DecidableEq, Repr

/-- The body of `authenticate` after the Bearer header has been peeled off
(middleware/auth.ts 33–76): verify the signature, load the session, check
`!session || session.token !== token || session.expiresAt < new Date()`,
load the user, check `!user || !user.isActive`. -/
def authenticateToken (env : AuthEnv) (token : String) : HttpAuthResult :=
  match env.verify token with
  | none => .err 401 "Invalid token"
  | some decoded =>
    match findSession env decoded.sessionId with
    | none => .err 401 "Session expired"
    | some session =>
      if session.token ≠ token ∨ session.expiresAt < env.now then
        .err 401 "Session expired"
      else
        match findUser env decoded.userId with
        | none => .err 401 "User not found or inactive"
        | some user =>
          if user.isActive then .ok user session
          else .err 401 "User not found or inactive"

/-- `authenticate` (middleware/auth.ts 21–77): reject a missing or
non-Bearer `Authorization` header, then validate the bare token. -/
def authenticate (env : AuthEnv) (authHeader : Option String) : HttpAuthResult :=
  match authHeader with
  | none => .err 401 "Unauthorized"
  | some header =>
    if header.startsWith "Bearer " then authenticateToken env (header.drop 7)
    else .err 401 "Unauthorized"

inductive SocketAuthResult where
  | ok (userId organizationId role : String)
  | err (message : String)
  deriving DecidableEq, Repr

/-- The Gateway handshake middleware (socketServer.ts 75–118): reject a
missing `handshake.auth.token`, verify the signature, load the session,
check `!session || session.expiresAt < new Date()` — *without* comparing
the session's stored token to the presented one — then load the user and
check `!user || !user.isActive`. -/
def socketAuthMiddleware (env : AuthEnv) (token : Option String) : SocketAuthResult :=
  match token with
  | none => .err "Authentication required"
  | some t =>
    match env.verify t with
    | none => .err "Invalid token"
    | some decoded =>
      match findSession env decoded.sessionId with
      | none => .err "Session expired"
      | some session =>
        if session.expiresAt < env.now then .err "Session expired"
        else
          match findUser env decoded.userId with
          | none => .err "User not found or inactive"
          | some user =>
            if user.isActive then .ok user.id user.organizationId user.role
            else .err "User not found or inactive"

/-- C4 (counterexample): the Gateway handshake does *not* apply the same
checks as the HTTP request path: a correctly signed credential whose
referenced session exists and is unexpired but whose *stored token
differs from the presented one* is rejected by `authenticate` yet
accepted by the handshake middleware, which never compares the tokens.
Environment: session `sess1` stores token `T1`, the presented signed
token is `T2` referencing `sess1`; the user is active. -/
theorem handshake_skips_token_match :
    socketAuthMiddleware
      ⟨fun t => if t = "T2" then some ⟨"u1", "sess1"⟩ else none,
       [⟨"sess1", "T1", 100⟩], [⟨"u1", "org1", "user", true⟩], 0⟩
      (some "T2") = .ok "u1" "org1" "user" ∧
    authenticateToken
      ⟨fun t => if t = "T2" then some ⟨"u1", "sess1"⟩ else none,
       [⟨"sess1", "T1", 100⟩], [⟨"u1", "org1", "user", true⟩], 0⟩
      "T2" = .err 401 "Session expired" := by
  constructor
  · rfl
  · rfl

/-- C4 (amended): the HTTP path succeeds exactly when the credential is
correctly signed, the referenced session exists, its *stored token equals
the presented one*, it has not expired, and the referenced user exists
and is active; the Gateway handshake applies the same checks *except* the
stored-token equality, which it skips. -/
theorem session_validation_checks (env : AuthEnv) (token : String) :
    ((∃ u s, authenticateToken env token = .ok u s) ↔
       ∃ d, env.verify token = some d ∧
         ∃ s, findSession env d.sessionId = some s ∧
           s.token = token ∧ ¬ s.expiresAt < env.now ∧
           ∃ u, findUser env d.userId = some u ∧ u.isActive = true) ∧
    ((∃ uid org role, socketAuthMiddleware env (some token) = .ok uid org role) ↔
       ∃ d, env.verify token = some d ∧
         ∃ s, findSession env d.sessionId = some s ∧
           ¬ s.expiresAt < env.now ∧
           ∃ u, findUser env d.userId = some u ∧ u.isActive = true) := by
  constructor
  · cases hv : env.verify token with
    | none => simp [authenticateToken, hv]
    | some d =>
      cases hs : findSession env d.sessionId with
      | none => simp [authenticateToken, hv, hs]
      | some s =>
        cases hu : findUser env d.userId with
        | none =>
          simp only [authenticateToken, hv, hs, hu]
          split_ifs with hexp
          · simp [hv, hs, hu]
          · simp [hv, hs, hu]
        | some u =>
          simp only [authenticateToken, hv, hs, hu]
          split_ifs with hexp hact
          · rcases hexp with h | h
            · simp [hv, hs, hu, h]
            · simp [hv, hs, hu, h]
          · push_neg at hexp
            simp [hv, hs, hu, hexp.1, hexp.2, hact]
          · push_neg at hexp
            simp [hv, hs, hu, hact]
  · cases hv : env.verify token with
    | none => simp [socketAuthMiddleware, hv]
    | some d =>
      cases hs : findSession env d.sessionId with
      | none => simp [socketAuthMiddleware, hv, hs]
      | some s =>
        cases hu : findUser env d.userId with
        | none =>
          simp only [socketAuthMiddleware, hv, hs, hu]
          split_ifs with hexp
          · simp [hv, hs, hu]
          · simp [hv, hs, hu]
        | some u =>
          simp only [socketAuthMiddleware, hv, hs, hu]
          split_ifs with hexp hact
          · simp [hv, hs, hu, hexp]
          · simp [hv, hs, hu, hact, Nat.le_of_not_lt hexp]
          · simp [hv, hs, hu, hact]

/-- Every outcome of `authenticate` is either a success or one of its four
literal 401 errors. -/
theorem authenticate_err_shape (env : AuthEnv) (h : Option String) :
    (∃ u s, authenticate env h = .ok u s) ∨
    authenticate env h = .err 401 "Unauthorized" ∨
    authenticate env h = .err 401 "Invalid token" ∨
    authenticate env h = .err 401 "Session expired" ∨
    authenticate env h = .err 401 "User not found or inactive" := by
  cases h with
  | none => right; left; rfl
  | some header =>
    by_cases hb : header.startsWith "Bearer "
    · cases hv : env.verify (header.drop 7) with
      | none =>
        right; right; left
        simp [authenticate, hb, authenticateToken, hv]
      | some d =>
        cases hs : findSession env d.sessionId with
        | none =>
          right; right; right; left
          simp [authenticate, hb, authenticateToken, hv, hs]
        | some s =>
          by_cases hexp : s.token ≠ header.drop 7 ∨ s.expiresAt < env.now
          · right; right; right; left
            simp [authenticate, hb, authenticateToken, hv, hs, hexp]
          · cases hu : findUser env d.userId with
            | none =>
              right; right; right; right
              simp [authenticate, hb, authenticateToken, hv, hs, hexp, hu]
            | some u =>
              by_cases hact : u.isActive
              · exact Or.inl ⟨u, s, by
                  simp [authenticate, hb, authenticateToken, hv, hs, hexp, hu, hact]⟩
              · right; right; right; right
                simp [authenticate, hb, authenticateToken, hv, hs, hexp, hu, hact]
    · right; left
      simp [authenticate, hb]

/-- Every outcome of the handshake middleware is either a success or one
of its four literal error messages. -/
theorem socketAuth_err_shape (env : AuthEnv) (t : Option String) :
    (∃ uid org role, socketAuthMiddleware env t = .ok uid org role) ∨
    socketAuthMiddleware env t = .err "Authentication required" ∨
    socketAuthMiddleware env t = .err "Invalid token" ∨
    socketAuthMiddleware env t = .err "Session expired" ∨
    socketAuthMiddleware env t = .err "User not found or inactive" := by
  cases t with
  | none => right; left; rfl
  | some tok =>
    cases hv : env.verify tok with
    | none =>
      right; right; left
      simp [socketAuthMiddleware, hv]
    | some d =>
      cases hs : findSession env d.sessionId with
      | none =>
        right; right; right; left
        simp [socketAuthMiddleware, hv, hs]
      | some s =>
        by_cases hexp : s.expiresAt < env.now
        · right; right; right; left
          simp [socketAuthMiddleware, hv, hs, hexp]
        · cases hu : findUser env d.userId with
          | none =>
            right; right; right; right
            simp [socketAuthMiddleware, hv, hs, hexp, hu]
          | some u =>
            by_cases hact : u.isActive
            · exact Or.inl ⟨u.id, u.organizationId, u.role, by
                simp [socketAuthMiddleware, hv, hs, hexp, hu, hact]⟩
            · right; right; right; right
              simp [socketAuthMiddleware, hv, hs, hexp, hu, hact]

/-- An environment with one correctly signed token `T1` whose session has
expired (expiresAt 0 < now 5). -/
def authEnvExpired : AuthEnv :=
  ⟨fun t => if t = "T1" then some ⟨"u1", "sess1"⟩ else none,
   [⟨"sess1", "T1", 0⟩], [⟨"u1", "org1", "user", true⟩], 5⟩

/-- C5 (counterexample): two failing validation attempts with different
causes produce *distinguishable* error results: a missing credential
yields message "Unauthorized" while an expired session yields
"Session expired" (and the handshake path likewise tells
"Authentication required" from "Session expired"). -/
theorem auth_failures_distinguishable :
    authenticate authEnvExpired none = .err 401 "Unauthorized" ∧
    authenticateToken authEnvExpired "T1" = .err 401 "Session expired" ∧
    socketAuthMiddleware authEnvExpired none = .err "Authentication required" ∧
    socketAuthMiddleware authEnvExpired (some "T1") = .err "Session expired" ∧
    ("Unauthorized" : String) ≠ "Session expired" ∧
    ("Authentication required" : String) ≠ "Session expired" := by
  refine ⟨rfl, rfl, rfl, rfl, by decide, by decide⟩

/-- C5 (amended): every failing validation yields the same HTTP status
401 (resp. a handshake refusal), but the error *message* depends on the
class of check that failed — one of four literal messages per path — so
distinct failure causes remain distinguishable to the caller. -/
theorem auth_failures_same_status_distinct_messages :
    (∀ env h st msg, authenticate env h = .err st msg → st = 401) ∧
    (∀ env h st msg, authenticate env h = .err st msg →
       msg ∈ ["Unauthorized", "Invalid token", "Session expired",
              "User not found or inactive"]) ∧
    (∀ env t msg, socketAuthMiddleware env t = .err msg →
       msg ∈ ["Authentication required", "Invalid token", "Session expired",
              "User not found or inactive"]) ∧
    authenticate authEnvExpired none = .err 401 "Unauthorized" ∧
    authenticateToken authEnvExpired "T1" = .err 401 "Session expired" := by
  refine ⟨?_, ?_, ?_, rfl, rfl⟩
  · intro env h st msg heq
    rcases authenticate_err_shape env h with ⟨u, s, hok⟩ | h1 | h1 | h1 | h1 <;>
      [skip; skip; skip; skip; skip] <;>
      first
      | (rw [heq] at hok; exact absurd hok (by simp))
      | (have h2 := heq.symm.trans h1
         simp only [HttpAuthResult.err.injEq] at h2
         exact h2.1)
  · intro env h st msg heq
    rcases authenticate_err_shape env h with ⟨u, s, hok⟩ | h1 | h1 | h1 | h1 <;>
      first
      | (rw [heq] at hok; exact absurd hok (by simp))
      | (have h2 := heq.symm.trans h1
         simp only [HttpAuthResult.err.injEq] at h2
         rw [h2.2]
         simp)
  · intro env t msg heq
    rcases socketAuth_err_shape env t with ⟨uid, org, role, hok⟩ | h1 | h1 | h1 | h1 <;>
      first
      | (rw [heq] at hok; exact absurd hok (by simp))
      | (have h2 := heq.symm.trans h1
         simp only [SocketAuthResult.err.injEq] at h2
         rw [h2]
         simp)

theorem auth_failures_same_status_distinct_messages_witness :
    (401 : Nat) = 401 ∧
    ("Unauthorized" : String) ∈ ["Unauthorized", "Invalid token", "Session expired",
       "User not found or inactive"] ∧
    ("Authentication required" : String) ∈ ["Authentication required", "Invalid token",
       "Session expired", "User not found or inactive"] :=
  ⟨auth_failures_same_status_distinct_messages.1 authEnvExpired none 401 "Unauthorized" rfl,
   auth_failures_same_status_distinct_messages.2.1 authEnvExpired none 401 "Unauthorized" rfl,
   auth_failures_same_status_distinct_messages.2.2.1 authEnvExpired none
     "Authentication required" rfl⟩

end ItemSeek
